import Mathlib

/-!
Verification development for the markdown-render-example repository.

The repository is a WYSIWYG markdown editor: a renderer turns markdown
tokens into an annotated DOM tree, and a restorer (`Restorer.js`) walks the
edited DOM tree and reconstructs the markdown string, counting the
zero-width-space placeholder characters (`​`) it strips.

This file shallowly embeds the relevant code:
  * `src/renderer/Restorer.js` (parseInlineElement, parseHTMLElement,
    the `restorer` dispatch table),
  * `src/utils/StringUtils.js` (spacesSeparatedToHump, mergeQuoteBlocks),
  * `src/renderer/rules.js` (the regex constants, given as executable
    character-list functions with the exact JS regex semantics),
  * `src/renderer/Renderer.js` (the heading renderer's derived attributes),
  * `src/utils/CursorUtils.js` (getTextRange).

DOM conventions used by the embedding:
  * an element is a tag name (uppercase, as DOM `tagName` reports for
    HTML), a class list, the `data-type` / `data-sign` / `data-anchor`
    dataset entries (absent entries are `none`), an attribute count
    (`element.attributes.length`), and an ordered child-node list;
  * `textContent` of an element is the concatenation of all descendant
    text nodes, in document order;
  * `element.children` enumerates only element children, while
    `childNodes` enumerates text and element children.

JavaScript-faithfulness conventions:
  * a JS function call that throws a TypeError (e.g. calling `.split` on a
    non-string, or invoking a missing dispatch-table entry) is modelled by
    `Option`, with `none` for the thrown exception;
  * a restorer result `{text}` with no `zwpAmount` field is modelled with
    `zwpAmount := 0`: every consumer in the repository reads the field as
    `tokens?.zwpAmount || 0`, so an absent field is observationally 0;
  * JS `||` on strings (empty string is falsy) is modelled by `jsOr`.
-/

/-- The zero-width-space placeholder character `​`. -/
def zwsp : Char := Char.ofNat 0x200B

/-- The placeholder as a one-character string. -/
def zwspStr : String := ⟨[zwsp]⟩

/-- The JavaScript whitespace class (`\s`, also used by `trim`,
`trimStart`, `trimEnd`).  Note that `​` is *not* JS whitespace. -/
def isSpaceJS (c : Char) : Bool :=
  c = ' ' || c = '\t' || c = '\n' || c = Char.ofNat 0x0B || c = Char.ofNat 0x0C ||
  c = '\r' || c = Char.ofNat 0xA0 || c = Char.ofNat 0x1680 ||
  (0x2000 ≤ c.toNat && c.toNat ≤ 0x200A) || c = Char.ofNat 0x2028 ||
  c = Char.ofNat 0x2029 || c = Char.ofNat 0x202F || c = Char.ofNat 0x205F ||
  c = Char.ofNat 0x3000 || c = Char.ofNat 0xFEFF

/-- JS regex `\w`: ASCII letters, digits and underscore. -/
def isWordChar (c : Char) : Bool :=
  ('a' ≤ c && c ≤ 'z') || ('A' ≤ c && c ≤ 'Z') || ('0' ≤ c && c ≤ '9') || c = '_'

/-- JS regex `[A-Z]`. -/
def isUpperChar (c : Char) : Bool := 'A' ≤ c && c ≤ 'Z'

/-- JS `String.prototype.trimStart` on a character list. -/
def trimStartJS (l : List Char) : List Char := l.dropWhile isSpaceJS

/-- JS `String.prototype.trimEnd` on a character list. -/
def trimEndJS (l : List Char) : List Char := (l.reverse.dropWhile isSpaceJS).reverse

/-- JS `String.prototype.trim` on a character list. -/
def trimJS (l : List Char) : List Char := trimEndJS (trimStartJS l)

/-- JS `a || b` for strings: the empty string is falsy. -/
def jsOr (a b : String) : String := if a = "" then b else a

/-- `[ \n]*$`: the tail consists only of spaces and newlines.  This is the
lookahead body of the `removableZeroWiseSpace` rule
(`/​(?![ \n]*$)/g` in `src/renderer/rules.js`). -/
def tailAllSpaceNL : List Char → Bool
  | [] => true
  | c :: cs => (c = ' ' || c = '\n') && tailAllSpaceNL cs

/-- ` *$`: the tail consists only of space characters.  This is the
reading of claim C3's "followed only by spaces", used to compare the
claim's wording against the implemented rule. -/
def tailAllSpaces : List Char → Bool
  | [] => true
  | c :: cs => (c = ' ') && tailAllSpaces cs

/-- Semantics of lines 26–30 of `Restorer.js` applied to one fragment:
`raw.match(/​(?![ \n]*$)/g)` counts every `​` whose tail is not
all spaces/newlines, and `raw.replace(...)` deletes exactly those
occurrences.  Returns (text with the removable placeholders deleted,
number of deleted placeholders). -/
def stripZwp : List Char → List Char × Nat
  | [] => ([], 0)
  | c :: cs =>
    let r := stripZwp cs
    if c = zwsp && !tailAllSpaceNL cs then (r.1, r.2 + 1) else (c :: r.1, r.2)

/-- Specification-side reformulation of the removable-placeholder rule:
pair every character with the remainder of the fragment after it; a
character is deleted and counted exactly when it is the placeholder and
its remainder is not all spaces/newlines. -/
def zwpPairs (s : List Char) : List (Char × List Char) :=
  s.zip s.tails.tail

/-- Whether a (character, remainder-after-it) pair is a removable
placeholder occurrence. -/
def zwpRemovablePair (p : Char × List Char) : Bool :=
  p.1 = zwsp && !tailAllSpaceNL p.2

/-- Specification-side version of `stripZwp`, stated by filtering the
(character, remainder) pairs. -/
def stripZwpSpec (s : List Char) : List Char × Nat :=
  (((zwpPairs s).filter (fun p => !zwpRemovablePair p)).map Prod.fst,
   ((zwpPairs s).filter zwpRemovablePair).length)

/-! ## DOM model -/

/-- A DOM node: a text node, or an element with tag name, class list,
`data-type`, `data-sign`, `data-anchor`, attribute count, and children. -/
inductive DNode : Type where
  | text : String → DNode
  | elem : String → List String → Option String → Option String → Option String →
      Nat → List DNode → DNode

/-- An element, as a record (same data as the `DNode.elem` constructor). -/
structure DElem where
  tag : String
  classes : List String
  dtype : Option String
  dsign : Option String
  danchor : Option String
  attrs : Nat
  children : List DNode

/-- View an element as a node. -/
def DElem.toNode (e : DElem) : DNode :=
  .elem e.tag e.classes e.dtype e.dsign e.danchor e.attrs e.children

/-- View a node as an element, if it is one. -/
def asElem : DNode → Option DElem
  | .text _ => none
  | .elem t c dt ds da a ch => some ⟨t, c, dt, ds, da, a, ch⟩

mutual

/-- `node.textContent` for a single node. -/
def nodeTextContent : DNode → String
  | .text s => s
  | .elem _ _ _ _ _ _ cs => nodesTextContent cs

/-- Concatenated `textContent` of a node list, in document order. -/
def nodesTextContent : List DNode → String
  | [] => ""
  | n :: ns => nodeTextContent n ++ nodesTextContent ns

end

/-- `element.textContent`. -/
def DElem.textContent (e : DElem) : String := nodesTextContent e.children

/-- `element.children`: the element children, in order. -/
def elementChildren (e : DElem) : List DElem := e.children.filterMap asElem

/-- `element.querySelectorAll("&>.md-i")`: direct element children with
class `md-i`. -/
def mdIChildren (e : DElem) : List DElem :=
  (elementChildren e).filter (fun c => "md-i" ∈ c.classes)

/-- `element.querySelector("&>.md-image-content")`: the first direct
element child with class `md-image-content`, if any. -/
def imageContentChild (e : DElem) : Option DElem :=
  (elementChildren e).find? (fun c => "md-image-content" ∈ c.classes)

/-! ## Inline restorer (`Restorer.js`, `parseInlineElement`) -/

/-- The `{text, zwpAmount}` record returned by the restorer functions.
A JS return value without a `zwpAmount` field is modelled with
`zwpAmount := 0` (see the file header). -/
structure Tokens where
  text : String
  zwpAmount : Nat
deriving DecidableEq

/-- `isSingleBRWithNoAttributes` (`Restorer.js`, lines 49–64): the element
has exactly one element child, a `<br>` with no attributes. -/
def isSingleBRWithNoAttributes (e : DElem) : Bool :=
  match elementChildren e with
  | [c] => c.tag = "BR" && c.attrs = 0
  | _ => false

/-- The `raw` string computed for one inline child in `parseInlineElement`
(`Restorer.js`, lines 17–23): the `{br, image}` dispatch table, falling
back (JS `||`) to the single-`<br>` special case or the child's
`textContent`.  `none` models the TypeError thrown for an `image` child
without an `.md-image-content` child. -/
def inlineRaw (inl : DElem) : Option String :=
  let fallback :=
    if isSingleBRWithNoAttributes inl then "\n> " ++ zwspStr else inl.textContent
  match inl.dtype with
  | some "br" => some (jsOr "\\\n" fallback)
  | some "image" =>
    match imageContentChild inl with
    | none => none
    | some c => some (jsOr c.textContent fallback)
  | _ => some fallback

/-- The fold of `parseInlineElement` over the `.md-i` children: each
child's `raw` has its removable placeholders counted and deleted
(`stripZwp`), the texts are concatenated and the counts added. -/
def parseInlineGo : List DElem → Option (String × Nat)
  | [] => some ("", 0)
  | c :: cs => do
    let raw ← inlineRaw c
    let r := stripZwp raw.data
    let rest ← parseInlineGo cs
    pure (String.mk r.1 ++ rest.1, r.2 + rest.2)

/-- `parseInlineElement` (`Restorer.js`, lines 12–38). -/
def parseInlineElement (e : DElem) : Option Tokens :=
  (parseInlineGo (mdIChildren e)).map fun r => ⟨r.1, r.2⟩

/-! ## Block restorers (`Restorer.js`, the `restorer` table) -/

/-- `restorer.paragraph` (`Restorer.js`, lines 165–173): an element with
empty `textContent` yields the synthesized placeholder `{text: "​"}`
(no `zwpAmount` field, hence 0); otherwise delegate to
`parseInlineElement`. -/
def restorer_paragraph (e : DElem) : Option Tokens :=
  if e.textContent = "" then some ⟨zwspStr, 0⟩ else parseInlineElement e

/-- The global replace `/\n\n/g → "\n> \n> "` (`Restorer.js`, line 146),
with the JS left-to-right non-overlapping scan. -/
def repDoubleNL : List Char → List Char
  | '\n' :: '\n' :: rest => '\n' :: '>' :: ' ' :: '\n' :: '>' :: ' ' :: repDoubleNL rest
  | c :: rest => c :: repDoubleNL rest
  | [] => []

/-- The global replace `/(?<!\\)\n(?!>)/g → "\n> "` (`Restorer.js`,
line 148): every newline not preceded by a backslash and not followed by
`>` (both lookarounds read the original string) is replaced.  `prev` is
the character before the current position, if any. -/
def repLoneNL (prev : Option Char) : List Char → List Char
  | [] => []
  | '\n' :: rest =>
    let okBehind : Bool := prev ≠ some '\\'
    let okAhead : Bool :=
      match rest with
      | '>' :: _ => false
      | _ => true
    if okBehind && okAhead then '\n' :: '>' :: ' ' :: repLoneNL (some '\n') rest
    else '\n' :: repLoneNL (some '\n') rest
  | c :: rest => c :: repLoneNL (some c) rest

/-- The replace `/\n> +$/ → "\n> ​"` (`Restorer.js`, line 150): a
suffix of newline, `>`, then one or more spaces running to the end is
replaced by the quote marker plus placeholder. -/
def repTrailingQuote (l : List Char) : List Char :=
  let r := l.reverse
  let sp := r.takeWhile (fun c => c = ' ')
  if 1 ≤ sp.length then
    match r.drop sp.length with
    | '>' :: '\n' :: rest => rest.reverse ++ ['\n', '>', ' ', zwsp]
    | _ => l
  else l

/-- The per-child fold of `restorer.blockquote` (`Restorer.js`,
lines 124–143), threading the `zwpAmount` variable: a `space` child
contributes a bare `"> "`, a `paragraph` child contributes
`sign + inline text` and *overwrites* `zwpAmount` with its own count, a
`blockquote` child throws (the returned record has no `.split` method:
`none`), anything else contributes the empty string. -/
def bqChildren (sign : String) : List DElem → Nat → Option (List String × Nat)
  | [], z => some ([], z)
  | c :: cs, z =>
    match c.dtype with
    | some "space" => (bqChildren sign cs z).map fun r => ("> " :: r.1, r.2)
    | some "paragraph" => do
      let t ← parseInlineElement c
      let r ← bqChildren sign cs t.zwpAmount
      pure ((sign ++ t.text) :: r.1, r.2)
    | some "blockquote" => none
    | _ => (bqChildren sign cs z).map fun r => ("" :: r.1, r.2)

/-- `restorer.blockquote` (`Restorer.js`, lines 120–157): restore every
element child, join with newlines, then apply the three replaces of
lines 146–150 and `trimEnd`. -/
def restorer_blockquote (e : DElem) : Option Tokens :=
  let sign := e.dsign.getD "undefined" ++ " "
  match bqChildren sign (elementChildren e) 0 with
  | none => none
  | some r =>
    let joined := String.intercalate "\n" r.1
    let t := trimEndJS (repTrailingQuote (repLoneNL none (repDoubleNL joined.data)))
    some ⟨String.mk t, r.2⟩

/-- The dynamic dispatch `restorer[type](block)` of `parseHTMLElement`
(`Restorer.js`, line 96) over the `restorer` table: `space`, `code`,
`blockquote`, `heading`, `paragraph`, `br` and `image` are the table's
keys; any other `data-type` (or a missing one) makes `restorer[type]`
undefined and the call throw (`none`). -/
def restorerDispatch (e : DElem) : Option Tokens :=
  match e.dtype with
  | some "space" => some ⟨"\n\n", 0⟩
  | some "code" => some ⟨e.textContent, 0⟩
  | some "blockquote" => restorer_blockquote e
  | some "heading" => some ⟨e.dsign.getD "undefined" ++ " " ++ e.textContent, 0⟩
  | some "paragraph" => restorer_paragraph e
  | some "br" => some ⟨"\\\n", 0⟩
  | some "image" =>
    match imageContentChild e with
    | none => none
    | some c => some ⟨c.textContent, 0⟩
  | _ => none

/-! ## Tree restorer (`Restorer.js`, `parseHTMLElement`) -/

/-- The `childNodes` filter of `parseHTMLElement` (`Restorer.js`,
lines 80–86): keep element children with class `md-b` and text children
whose trimmed content is nonempty. -/
def isRestoreBlock : DNode → Bool
  | .text s => !(trimJS s.data).isEmpty
  | .elem _ classes _ _ _ _ _ => "md-b" ∈ classes

/-- The accumulation loop of `parseHTMLElement` (`Restorer.js`,
lines 88–100): a text node is appended verbatim (and contributes no
placeholder count); an element is restored through the dispatch table and
contributes its text plus a blank line (`"\n\n"`) and its placeholder
count (`tokens?.zwpAmount || 0`). -/
def parseHTMLGo : List DNode → Option (String × Nat)
  | [] => some ("", 0)
  | .text s :: rest => (parseHTMLGo rest).map fun r => (s ++ r.1, r.2)
  | .elem t c dt ds da a ch :: rest => do
    let tok ← restorerDispatch ⟨t, c, dt, ds, da, a, ch⟩
    let r ← parseHTMLGo rest
    pure (tok.text ++ "\n\n" ++ r.1, tok.zwpAmount + r.2)

/-- The final `markdown.replace(/\n{2,}$/, "\n\n")` (`Restorer.js`,
line 103): a trailing run of two or more newlines collapses to exactly
two. -/
def collapseTrailing (s : String) : String :=
  let r := s.data.reverse
  let k := (r.takeWhile (fun c => c = '\n')).length
  if 2 ≤ k then String.mk ((r.drop k).reverse ++ ['\n', '\n']) else s

/-- `parseHTMLElement` (`Restorer.js`, lines 75–106). -/
def parseHTMLElement (container : DElem) : Option Tokens :=
  (parseHTMLGo (container.children.filter isRestoreBlock)).map fun r =>
    ⟨collapseTrailing r.1, r.2⟩

/-! ## String utilities (`StringUtils.js`) -/

/-- The first replace of `spacesSeparatedToHump` (`StringUtils.js`,
lines 13–17): regex `(?:^\w|[A-Z]|\b\w)` matches a single character that
is a word character at a word boundary or any capital letter; the
callback keeps the match at offset 0 and uppercases every other match.
`isFirst` is true at offset 0, `prevW` tells whether the previous
character is a word character (false at offset 0). -/
def humpRep (isFirst prevW : Bool) : List Char → List Char
  | [] => []
  | c :: cs =>
    let m := (isWordChar c && !prevW) || isUpperChar c
    let c2 := if m && !isFirst then c.toUpper else c
    c2 :: humpRep false (isWordChar c) cs

/-- `spacesSeparatedToHump` (`StringUtils.js`, lines 13–17): the
word-boundary replace followed by `replace(/\s+/g, '')`, which deletes
every whitespace character. -/
def spacesSeparatedToHump (s : String) : String :=
  String.mk ((humpRep true false s.data).filter (fun c => !isSpaceJS c))

/-- The transformed character for one (character, previous-character)
pair in the specification-side reformulation of `spacesSeparatedToHump`:
a word character starting a word (no previous character or a non-word
previous character) or a capital letter is uppercased, except the very
first character of the string (previous character `none`), which is kept
as it is. -/
def humpPair (c : Char) (prev : Option Char) : Char :=
  let m := (isWordChar c && prev.elim true (fun p => !isWordChar p)) || isUpperChar c
  if m && prev.isSome then c.toUpper else c

/-- Specification-side version of `spacesSeparatedToHump`: transform each
character by `humpPair` against its predecessor, then delete whitespace. -/
def humpSpec (s : String) : String :=
  String.mk (((s.data.zip (none :: s.data.map some)).map
    (fun p => humpPair p.1 p.2)).filter (fun c => !isSpaceJS c))

/-- The `rules.other.blockquoteLineIsEmpty` regex `/^ {0,3}>[\t ]*$/`
(`rules.js`): up to three leading spaces, a `>`, then only tabs and
spaces to the end of the line. -/
def blockquoteLineIsEmpty (s : String) : Bool :=
  let sp := s.data.takeWhile (fun c => c = ' ')
  sp.length ≤ 3 &&
    match s.data.drop sp.length with
    | '>' :: rest => rest.all (fun c => c = '\t' || c = ' ')
    | _ => false

/-- The loop body of `mergeQuoteBlocks` (`StringUtils.js`, lines 92–117)
acting on the result list built so far: an empty blockquote line is
pushed as-is; a content line merges into a non-empty previous entry
(strip the leading `>` from both, join with the `##br##` token, trim the
start of the new content), otherwise it is pushed as-is. -/
def mergeQuoteStep (result : List String) (line : String) : List String :=
  if blockquoteLineIsEmpty line then result ++ [line]
  else
    match result.getLast? with
    | some lastLine =>
      if !blockquoteLineIsEmpty lastLine then
        result.dropLast ++
          [">" ++ lastLine.drop 1 ++ "##br##" ++ String.mk (trimStartJS (line.drop 1).data)]
      else result ++ [line]
    | none => result ++ [line]

/-- `mergeQuoteBlocks` (`StringUtils.js`, lines 90–120). -/
def mergeQuoteBlocks (lines : List String) : List String :=
  lines.foldl mergeQuoteStep []

/-! ## Heading renderer (`Renderer.js`, `renderer.heading`) -/

/-- The DOM produced by the template literal of `renderer.heading`
(`Renderer.js`, lines 37–42) for a heading whose inline tokens are plain
text tokens: `tokenTexts` are the `text` fields of the heading token's
child tokens, so `escapedText = tokens.reduce((acc, item) => acc + item.text, "")`;
each text token is rendered by `renderer.text` as a
`span.md-i[data-type=inlineText]`.  The element carries
`data-anchor="${spacesSeparatedToHump(escapedText)}"` and
`data-sign="${"#".repeat(depth) + " "}"`, and its four attributes are
`class`, `data-type`, `data-anchor` and `data-sign`. -/
def renderer_heading (depth : Nat) (tokenTexts : List String) : DElem :=
  let escapedText := tokenTexts.foldl (fun a t => a ++ t) ""
  { tag := "H" ++ toString depth
  , classes := ["md-e", "md-b"]
  , dtype := some "heading"
  , dsign := some (String.mk (List.replicate depth '#') ++ " ")
  , danchor := some (spacesSeparatedToHump escapedText)
  , attrs := 4
  , children := [.elem "SPAN" ["md-content"] none none none 1
      (tokenTexts.map (fun t => .elem "SPAN" ["md-i"] (some "inlineText") none none 2 [.text t]))] }

/-! ## Cursor range reconstruction (`CursorUtils.js`, `getTextRange`) -/

/-- One endpoint of the DOM `Range` built by `getTextRange`: either an
offset inside the `idx`-th text node of the tree walk, or the container
element itself at offset 0 (the fallback of lines 136–144). -/
inductive RangePoint : Type where
  | containerStart : RangePoint
  | inText : Nat → Nat → RangePoint
deriving DecidableEq

/-- The tree-walker loop of `getTextRange` (`CursorUtils.js`,
lines 115–133) for one offset: walk the text nodes (given by their
lengths) keeping a running character count, and stop at the first node
where `charCount + nodeLength >= offset`; if no node qualifies, fall back
to the container at offset 0.  The JS loop computes both endpoints in one
pass, but each endpoint is set independently at its own first qualifying
node, so one scan per offset is equivalent; the early `break` once both
are found cannot change either result. -/
def findTextPos (idx charCount : Nat) (texts : List Nat) (off : Nat) : RangePoint :=
  match texts with
  | [] => .containerStart
  | n :: rest =>
    if off ≤ charCount + n then .inText idx (off - charCount)
    else findTextPos (idx + 1) (charCount + n) rest off

/-- `getTextRange` (`CursorUtils.js`, lines 109–152), abstracted over the
lengths of the container's text nodes in document order. -/
def getTextRange (texts : List Nat) (startOffset endOffset : Nat) :
    RangePoint × RangePoint :=
  (findTextPos 0 0 texts startOffset, findTextPos 0 0 texts endOffset)

/-- The flattened-text position a `RangePoint` denotes: the container at
offset 0 is the position before any content, i.e. flattened position 0;
an offset inside the `idx`-th text node adds the lengths of the preceding
text nodes. -/
def rangeFlatPos (texts : List Nat) : RangePoint → Nat
  | .containerStart => 0
  | .inText idx off => (texts.take idx).sum + off

/-! ## Concrete example nodes -/

/-- An inline text span as produced by `renderer.text` (`Renderer.js`,
lines 99–102): `span.md-i[data-type=inlineText]` with attributes `class`
and `data-type`. -/
def spanIText (t : String) : DNode :=
  .elem "SPAN" ["md-i"] (some "inlineText") none none 2 [.text t]

/-- A rendered paragraph block (`renderer.paragraph`, `Renderer.js`,
lines 43–45) with the given children. -/
def mkParagraph (cs : List DNode) : DElem :=
  ⟨"P", ["md-e", "md-b"], some "paragraph", none, none, 2, cs⟩

/-- A rendered blockquote block (`renderer.blockquote`, `Renderer.js`,
lines 34–36) with `data-sign=">"` and the given children. -/
def mkBlockquote (cs : List DNode) : DElem :=
  ⟨"BLOCKQUOTE", ["md-e", "md-b"], some "blockquote", some ">", none, 3, cs⟩

/-- A paragraph whose only content is a single placeholder character,
wrapped in the usual inline span. -/
def exPZwsp : DElem := mkParagraph [spanIText zwspStr]

/-- A paragraph element with no content at all. -/
def exPEmpty : DElem := mkParagraph []

/-- A paragraph whose inline fragment is a placeholder followed by a
newline. -/
def exPNewline : DElem := mkParagraph [spanIText (String.mk [zwsp, '\n'])]

/-- A blockquote with a single paragraph child reading `hi`. -/
def exBqHi : DElem := mkBlockquote [(mkParagraph [spanIText "hi"]).toNode]

/-- A blockquote with a single paragraph child whose fragment is a
placeholder followed by `a` (one removable placeholder). -/
def exBqA : DElem := mkBlockquote [(mkParagraph [spanIText (zwspStr ++ "a")]).toNode]

/-- A blockquote with two paragraph children: the first strips one
placeholder, the second strips none. -/
def exBq2 : DElem :=
  mkBlockquote [(mkParagraph [spanIText (zwspStr ++ "a")]).toNode,
                (mkParagraph [spanIText "b"]).toNode]

/-- The editing-surface root holding the rendered tree of the markdown
source `"# Hi"`: marked tokenizes it as a depth-1 heading whose single
inline token is the text `Hi`, and `renderer.heading` produces the
`h1.md-e.md-b` element modelled by `renderer_heading 1 ["Hi"]`. -/
def renderHiRoot : DElem :=
  ⟨"DIV", ["markdwon-editor"], none, none, none, 1, [(renderer_heading 1 ["Hi"]).toNode]⟩

/-- A heading element as restored-from by claim C10's witness. -/
def exHeading : DElem :=
  ⟨"H1", ["md-e", "md-b"], some "heading", some "# ", some "Hi", 4, [.text "Hi"]⟩

/-- A container whose children are a bare text node followed by a heading
block, for claim C10's witness. -/
def exC10Root : DElem :=
  ⟨"DIV", ["markdwon-editor"], none, none, none, 1, [.text "x", exHeading.toNode]⟩

/-! ## Helper lemmas -/

theorem string_append_empty (s : String) : s ++ "" = s := by
  cases s with
  | mk l => show String.mk (l ++ []) = String.mk l; rw [List.append_nil]

theorem string_append_assoc (a b c : String) : a ++ b ++ c = a ++ (b ++ c) := by
  cases a with
  | mk la =>
    cases b with
    | mk lb =>
      cases c with
      | mk lc => show String.mk (la ++ lb ++ lc) = _; rw [List.append_assoc]; rfl

/-- Unfolding lemma for `zwpPairs` on a cons cell. -/
theorem zwpPairs_cons (c : Char) (cs : List Char) :
    zwpPairs (c :: cs) = (c, cs) :: zwpPairs cs := by
  cases cs with
  | nil => rfl
  | cons a l => rfl

/-- `stripZwp` computes exactly the (character, remainder)-pair filter of
`stripZwpSpec`. -/
theorem stripZwp_eq_spec (s : List Char) : stripZwp s = stripZwpSpec s := by
  induction s with
  | nil => rfl
  | cons c cs ih =>
    have hcond : (c = zwsp && !tailAllSpaceNL cs) = zwpRemovablePair (c, cs) := rfl
    simp only [stripZwp, hcond, ih, stripZwpSpec, zwpPairs_cons, List.filter_cons]
    by_cases h : zwpRemovablePair (c, cs) = true
    · simp [h]
    · simp [h]

/-- A blockquote child on which `restorer.blockquote` does not throw: a
nested `blockquote` child always throws (`.split` on a non-string), and
a `paragraph` child throws iff `parseInlineElement` does. -/
def bqSafeChild (c : DElem) : Bool :=
  match c.dtype with
  | some "blockquote" => false
  | some "paragraph" => (parseInlineElement c).isSome
  | _ => true

/-- The placeholder counts of the `paragraph`-typed elements of a child
list, in order (a throwing `parseInlineElement` counts as 0 here; the
lemmas below only use this under `bqSafeChild`). -/
def paraCounts (cs : List DElem) : List Nat :=
  (cs.filter (fun c => c.dtype = some "paragraph")).map
    (fun c => ((parseInlineElement c).map Tokens.zwpAmount).getD 0)

/-- On safe children, the `restorer.blockquote` fold succeeds, and the
threaded `zwpAmount` variable ends at the placeholder count of the last
`paragraph` child (the initial value if there is none): the assignment at
line 130 of `Restorer.js` overwrites, so the last write wins. -/
theorem bqChildren_safe (sign : String) (cs : List DElem) (z : Nat)
    (h : ∀ c ∈ cs, bqSafeChild c = true) :
    ∃ parts, bqChildren sign cs z = some (parts, (paraCounts cs).getLastD z) := by
  induction cs generalizing z with
  | nil => exact ⟨[], rfl⟩
  | cons c cs ih =>
    have hc : bqSafeChild c = true := h c (List.mem_cons_self _ _)
    have hcs : ∀ x ∈ cs, bqSafeChild x = true := fun x hx => h x (List.mem_cons_of_mem _ hx)
    unfold bqChildren
    split
    · next hd =>
      obtain ⟨parts, hp⟩ := ih z hcs
      have hne : ¬ (c.dtype = some "paragraph") := by rw [hd]; decide
      have hpc : paraCounts (c :: cs) = paraCounts cs := by
        unfold paraCounts; rw [List.filter_cons_of_neg]; simpa using hne
      exact ⟨"> " :: parts, by simp [hp, hpc]⟩
    · next hd =>
      unfold bqSafeChild at hc
      rw [hd] at hc
      obtain ⟨t, ht⟩ := Option.isSome_iff_exists.mp hc
      obtain ⟨parts, hp⟩ := ih t.zwpAmount hcs
      have hpc : paraCounts (c :: cs) = t.zwpAmount :: paraCounts cs := by
        unfold paraCounts
        rw [List.filter_cons_of_pos]
        · rw [List.map_cons, ht]; rfl
        · simpa using hd
      refine ⟨(sign ++ t.text) :: parts, ?_⟩
      rw [hpc, List.getLastD_cons]
      simp [ht, hp]
    · next hd =>
      unfold bqSafeChild at hc
      rw [hd] at hc
      cases hc
    · next hd1 hd2 hd3 =>
      obtain ⟨parts, hp⟩ := ih z hcs
      have hne : ¬ (c.dtype = some "paragraph") := fun hx => hd2 hx
      have hpc : paraCounts (c :: cs) = paraCounts cs := by
        unfold paraCounts; rw [List.filter_cons_of_neg]; simpa using hne
      exact ⟨"" :: parts, by simp [hp, hpc]⟩

/-- The transformed head character of the word-boundary replace, written
with an explicit previous-character option, agrees with `humpPair`. -/
theorem humpHead (c : Char) (prev : Option Char) :
    (if ((isWordChar c && !(prev.elim false isWordChar)) || isUpperChar c) && !prev.isNone
      then c.toUpper else c) = humpPair c prev := by
  cases prev with
  | none => simp [humpPair]
  | some p => simp [humpPair, Option.elim]

/-- The word-boundary replace of `spacesSeparatedToHump`, reformulated on
(character, previous-character) pairs: the state of the source-side scan
is exactly "am I at offset 0" (`prev.isNone`) and "was the previous
character a word character" (`prev.elim false isWordChar`). -/
theorem humpRep_eq_pairs (l : List Char) (prev : Option Char) :
    humpRep prev.isNone (prev.elim false isWordChar) l =
      (l.zip (prev :: l.map some)).map (fun p => humpPair p.1 p.2) := by
  induction l generalizing prev with
  | nil => rfl
  | cons c cs ih =>
    have tail : humpRep false (isWordChar c) cs =
        (cs.zip (some c :: cs.map some)).map (fun p => humpPair p.1 p.2) := ih (some c)
    simp only [humpRep, List.zip_cons_cons, List.map_cons]
    rw [tail, humpHead]

/-- `spacesSeparatedToHump` equals its pairwise specification. -/
theorem spacesSeparatedToHump_eq_spec (s : String) :
    spacesSeparatedToHump s = humpSpec s := by
  unfold spacesSeparatedToHump humpSpec
  rw [show (true : Bool) = (none : Option Char).isNone from rfl,
    show (false : Bool) = (none : Option Char).elim false isWordChar from rfl,
    humpRep_eq_pairs]

/-- The tree-walker loop of `getTextRange` never finds a node for an
offset strictly beyond the total text length: the running count plus each
node length stays below the offset, so the loop falls through to the
container fallback. -/
theorem findTextPos_overflow (texts : List Nat) (idx cc off : Nat)
    (h : cc + texts.sum < off) : findTextPos idx cc texts off = .containerStart := by
  induction texts generalizing idx cc with
  | nil => rfl
  | cons n rest ih =>
    have hsum : (n :: rest).sum = n + rest.sum := by simp
    rw [hsum] at h
    have h1 : ¬ off ≤ cc + n := by omega
    unfold findTextPos
    rw [if_neg h1]
    exact ih (idx + 1) (cc + n) (by omega)

/-- The claim-side variant of the removable-placeholder rule under claim
C3's literal wording "followed only by spaces": the lookahead class is
just the space character, not space-or-newline. -/
def zwpRemovablePairSpacesOnly (p : Char × List Char) : Bool :=
  p.1 = zwsp && !tailAllSpaces p.2

/-- What claim C3's wording predicts for a fragment: delete and count
exactly the placeholders not followed only by space characters. -/
def stripZwpSpacesOnly (s : List Char) : List Char × Nat :=
  (((zwpPairs s).filter (fun p => !zwpRemovablePairSpacesOnly p)).map Prod.fst,
   ((zwpPairs s).filter zwpRemovablePairSpacesOnly).length)

/-- The final value of the threaded `zwpAmount` of `restorer.blockquote`:
the placeholder count of the last `paragraph` child, or 0 when there is
no `paragraph` child. -/
def lastParaZwp (e : DElem) : Nat := (paraCounts (elementChildren e)).getLastD 0

/-! ## Claims -/

/-- C1, counterexample: the claim says `restorer.blockquote` always
returns `{text: undefined, zwpAmount: 0}` because an early top-level
return short-circuits the pipeline.  The traced source has no such early
return: on a blockquote with one paragraph child holding one removable
placeholder, the function returns the pipeline-constructed string
`"> a"` together with `zwpAmount = 1`, so in particular the returned
`zwpAmount` is not always 0 and the returned `text` is the (defined)
pipeline string, not `undefined`. -/
theorem claim_C1_counterexample :
    restorer_blockquote exBqA = some ⟨"> a", 1⟩ ∧
      (restorer_blockquote exBqA).map Tokens.zwpAmount ≠ some 0 := by
  decide

/-- C1, amended: `restorer.blockquote` has no early top-level return; for
every blockquote node on which it does not throw (no nested-blockquote
child, no throwing paragraph child), it returns a defined
`{text, zwpAmount}` record built by the line-joining/quote-marker
pipeline. -/
theorem claim_C1_amended (e : DElem)
    (h : ∀ c ∈ elementChildren e, bqSafeChild c = true) :
    (restorer_blockquote e).isSome = true := by
  obtain ⟨parts, hp⟩ :=
    bqChildren_safe (e.dsign.getD "undefined" ++ " ") (elementChildren e) 0 h
  simp only [restorer_blockquote]
  rw [hp]
  rfl

/-- C1, witness for the amended theorem, at a blockquote with a single
paragraph child reading `hi`. -/
theorem claim_C1_amended_witness :
    (restorer_blockquote exBqHi).isSome = true :=
  claim_C1_amended exBqHi (by decide)

/-- C2: the round-trip property fails at the markdown source `"# Hi"`.
marked tokenizes it as a depth-1 heading with escaped text `Hi`;
`renderer.heading` stores `data-sign="# "` (the `#` run plus one space),
and `restorer.heading` computes `sign + " " + textContent`, inserting a
second space; `parseHTMLElement` additionally keeps one trailing blank
line.  So restoring the unedited rendered tree of `"# Hi"` yields
`"#  Hi\n\n"`, not `"# Hi"` (and no normalization that only collapses
trailing blank lines can bridge the doubled space). -/
theorem claim_C2_code_bug :
    parseHTMLElement renderHiRoot = some ⟨"#  Hi\n\n", 0⟩ ∧
      "#  Hi\n\n" ≠ "# Hi" ∧ "#  Hi" ≠ "# Hi" := by
  decide

/-- C3, counterexample: the implemented lookahead of
`removableZeroWiseSpace` is `[ \n]*$` (spaces or newlines), not ` *$`
(spaces only).  On the fragment consisting of a placeholder followed by a
newline, the placeholder is not followed only by spaces, so the claim
predicts it is counted and deleted; the code keeps it and counts 0, both
at the fragment level and through `parseInlineElement`. -/
theorem claim_C3_counterexample :
    stripZwp [zwsp, '\n'] ≠ stripZwpSpacesOnly [zwsp, '\n'] ∧
      stripZwp [zwsp, '\n'] = ([zwsp, '\n'], 0) ∧
      parseInlineElement exPNewline = some ⟨String.mk [zwsp, '\n'], 0⟩ := by
  decide

/-- C3, amended: for every inline fragment, exactly those placeholder
characters that are NOT followed only by spaces *or newlines* up to the
end of the fragment are counted and deleted; a placeholder followed only
by spaces/newlines up to the end is kept and contributes 0.  This is the
pair-filter specification `stripZwpSpec`, and the fragment processing of
`parseInlineElement` (`stripZwp`) computes exactly it. -/
theorem claim_C3_amended (s : List Char) : stripZwp s = stripZwpSpec s :=
  stripZwp_eq_spec s

/-- C4, counterexample: restoring a paragraph whose only content is a
single placeholder character does NOT yield `{text: "", placeholderCount: 1}`.
The lone placeholder is a trailing placeholder (followed by nothing), so
the trailing exemption keeps it: the result is
`{text: "​", zwpAmount: 0}`. -/
theorem claim_C4_counterexample :
    restorer_paragraph exPZwsp = some ⟨zwspStr, 0⟩ ∧
      restorer_paragraph exPZwsp ≠ some ⟨"", 1⟩ := by
  decide

/-- C4, amended: restoring a paragraph visual node whose only inline
content is a single placeholder character yields
`{text: "​", placeholderCount: 0}`: the trailing placeholder is kept
in the text and contributes nothing to the count. -/
theorem claim_C4_amended (e c : DElem)
    (h1 : mdIChildren e = [c]) (h2 : inlineRaw c = some zwspStr)
    (h3 : ¬ e.textContent = "") :
    restorer_paragraph e = some ⟨zwspStr, 0⟩ := by
  unfold restorer_paragraph
  rw [if_neg h3]
  simp only [parseInlineElement, parseInlineGo, h1, h2]
  decide

/-- C4, witness for the amended theorem at the concrete
single-placeholder paragraph. -/
theorem claim_C4_amended_witness :
    restorer_paragraph exPZwsp = some ⟨zwspStr, 0⟩ :=
  claim_C4_amended exPZwsp ⟨"SPAN", ["md-i"], some "inlineText", none, none, 2, [.text zwspStr]⟩
    rfl (by decide) (by decide)

/-- C5: restoring a paragraph visual node with no text content at all
yields `{text: "​", placeholderCount: 0}` from the empty-paragraph
special case of `restorer.paragraph` (the placeholder is synthesized, not
stripped; the JS return carries no `zwpAmount` field and every consumer
coerces it to 0). -/
theorem claim_C5 (e : DElem) (h : e.textContent = "") :
    restorer_paragraph e = some ⟨zwspStr, 0⟩ := by
  unfold restorer_paragraph
  rw [if_pos h]

/-- C5, witness at a concrete empty paragraph element. -/
theorem claim_C5_witness :
    exPEmpty.textContent = "" ∧ restorer_paragraph exPEmpty = some ⟨zwspStr, 0⟩ :=
  ⟨rfl, claim_C5 exPEmpty rfl⟩

/-- C6, counterexample: the claim says the blockquote restorer's
`zwpAmount` equals the SUM of the placeholder counts of all nested
paragraph children.  On a blockquote with two paragraph children whose
counts are 1 and 0 (in that order), the sum is 1, but line 130 of
`Restorer.js` assigns (`zwpAmount = ...`) instead of accumulating, so the
returned `zwpAmount` is the last child's count, 0. -/
theorem claim_C6_counterexample :
    (restorer_blockquote exBq2).map Tokens.zwpAmount = some 0 ∧
      (paraCounts (elementChildren exBq2)).sum = 1 := by
  decide

/-- C6, amended: for every blockquote visual node on which the restorer
does not throw, the returned `zwpAmount` equals the placeholder count of
the LAST nested paragraph child (0 when there is none): each paragraph
child's count overwrites the previous value rather than accumulating. -/
theorem claim_C6_amended (e : DElem)
    (h : ∀ c ∈ elementChildren e, bqSafeChild c = true) :
    (restorer_blockquote e).map Tokens.zwpAmount = some (lastParaZwp e) := by
  obtain ⟨parts, hp⟩ :=
    bqChildren_safe (e.dsign.getD "undefined" ++ " ") (elementChildren e) 0 h
  simp only [restorer_blockquote]
  rw [hp]
  rfl

/-- C6, witness for the amended theorem at the two-paragraph blockquote:
the last paragraph's count is 0 and that is the returned `zwpAmount`. -/
theorem claim_C6_amended_witness :
    (restorer_blockquote exBq2).map Tokens.zwpAmount = some (lastParaZwp exBq2) :=
  claim_C6_amended exBq2 (by decide)

/-- C7: `mergeQuoteBlocks` applied to
`["> line one.", "> line two.", "> ", "> line three."]` returns three
entries: the first two lines merged and joined by the `##br##` token, the
empty blockquote line preserved unmerged, and the third line starting a
new entry. -/
theorem claim_C7 :
    mergeQuoteBlocks ["> line one.", "> line two.", "> ", "> line three."] =
      ["> line one.##br##line two.", "> ", "> line three."] := by
  decide

/-- C8, counterexample: the claim says the heading anchor camel-cases the
flattened text with a lowercase first-word initial, so `"Hello World"`
would yield `"helloWorld"`.  The replace callback of
`spacesSeparatedToHump` keeps the match at offset 0 unchanged (it never
lowercases), so the rendered anchor is `"HelloWorld"`. -/
theorem claim_C8_counterexample :
    (renderer_heading 1 ["Hello World"]).danchor = some "HelloWorld" ∧
      (renderer_heading 1 ["Hello World"]).danchor ≠ some "helloWorld" := by
  decide

/-- C8, amended: for every heading token, the derived anchor equals the
flattened literal text transformed character-by-character against its
predecessor: the first character of every word (and any capital letter)
is uppercased, EXCEPT the string's very first character, which is kept
as it is; whitespace is removed.  `"hello world"` yields `"helloWorld"`
but `"Hello World"` yields `"HelloWorld"`. -/
theorem claim_C8_amended (depth : Nat) (tokenTexts : List String) :
    (renderer_heading depth tokenTexts).danchor =
      some (humpSpec (tokenTexts.foldl (fun a t => a ++ t) "")) := by
  simp only [renderer_heading, spacesSeparatedToHump_eq_spec]

/-- C9, counterexample: the claim says an offset beyond the flattened
text length clamps to the END of the content.  With a single text node of
length 2 and offset 5, the walker finds no node and `getTextRange` falls
back to the container at offset 0 — the START of the content (flattened
position 0, not 2). -/
theorem claim_C9_counterexample :
    getTextRange [2] 5 5 = (RangePoint.containerStart, RangePoint.containerStart) ∧
      rangeFlatPos [2] (getTextRange [2] 5 5).1 = 0 ∧
      rangeFlatPos [2] (getTextRange [2] 5 5).1 ≠ ([2] : List Nat).sum := by
  decide

/-- C9, amended: for every cursor offset pair, an offset strictly beyond
the flattened text length does not fail: `getTextRange` resolves it to
the container at offset 0, i.e. the START of the content (flattened
position 0), not the end. -/
theorem claim_C9_amended (texts : List Nat) (s e : Nat) (h : texts.sum < s) :
    (getTextRange texts s e).1 = RangePoint.containerStart ∧
      rangeFlatPos texts (getTextRange texts s e).1 = 0 := by
  have h0 : findTextPos 0 0 texts s = .containerStart :=
    findTextPos_overflow texts 0 0 s (by omega)
  unfold getTextRange
  rw [h0]
  exact ⟨rfl, rfl⟩

/-- C9, witness for the amended theorem at a single length-2 text node
and offset 5. -/
theorem claim_C9_amended_witness :
    (getTextRange [2] 5 5).1 = RangePoint.containerStart ∧
      rangeFlatPos [2] (getTextRange [2] 5 5).1 = 0 :=
  claim_C9_amended [2] 5 5 (by decide)

/-- C10: in `parseHTMLElement`, a direct text-node child with
non-whitespace content is appended verbatim — no blank-line separator
after it — and contributes 0 to the total placeholder count, while a
restored element block gets two newlines appended after its text; so a
bare text node concatenates directly onto the following block's text. -/
theorem claim_C10 (t : String) (b : DElem) (rb : Tokens)
    (tg : String) (cls : List String) (dt ds da : Option String) (a : Nat)
    (hText : (trimJS t.data).isEmpty = false)
    (hCls : "md-b" ∈ b.classes)
    (hDisp : restorerDispatch b = some rb) :
    parseHTMLElement ⟨tg, cls, dt, ds, da, a, [.text t, b.toNode]⟩ =
      some ⟨collapseTrailing (t ++ rb.text ++ "\n\n"), rb.zwpAmount⟩ := by
  have h1 : isRestoreBlock (.text t) = true := by
    simp [isRestoreBlock, hText]
  have h2 : isRestoreBlock
      (DNode.elem b.tag b.classes b.dtype b.dsign b.danchor b.attrs b.children) = true := by
    simp [isRestoreBlock, hCls]
  have heta : (⟨b.tag, b.classes, b.dtype, b.dsign, b.danchor, b.attrs, b.children⟩ : DElem) = b :=
    rfl
  simp only [parseHTMLElement, List.filter_cons, h1, h2, if_pos, List.filter_nil,
    parseHTMLGo, DElem.toNode, heta, hDisp, Option.map_some, Option.some_bind]
  simp [string_append_empty, string_append_assoc]

/-- C10, witness: a container holding the bare text node `x` followed by
a heading block restores to the text-node content directly concatenated
onto the heading's restored text, with one appended blank line and a
placeholder count of 0. -/
theorem claim_C10_witness :
    parseHTMLElement exC10Root =
      some ⟨collapseTrailing ("x" ++ "#  Hi" ++ "\n\n"), 0⟩ :=
  claim_C10 "x" exHeading ⟨"#  Hi", 0⟩ "DIV" ["markdwon-editor"] none none none 1
    (by decide) (by decide) (by decide)
